import Mathlib

/-!
Shallow embedding of `src/script.js` (watt-sCookingButBetter): a chart
digitizer that calibrates a vertical axis from two clicked points,
collects twelve month points, applies an affine pixel-to-value map and
supports a lossless crop workflow.

JS numbers are modelled as rationals (`ℚ`); `parseFloat` results are
`Option ℚ` with `none` standing for `NaN`; `Math.round` is
`jsRound` (round half toward positive infinity); the JS `%` operator
on integers is `Int.tmod` (remainder keeps the sign of the dividend).
The module-level mutable variables form the `AppState` record and each
DOM event handler becomes one arm of the `step` function.
-/

namespace WattChart

/-- A point in canvas raster coordinates (the `[x, y]` pairs pushed into
`calib` and `monthPts`). -/
structure Point where
  x : ℚ
  y : ℚ
deriving DecidableEq

/-- The data captured by the closure `affine = (x,y) => vmin + ((yb - y) / pixelRange) * dataRange`
built in `setCalibBtn.onclick`. -/
structure AffineParams where
  yb : ℚ
  pixelRange : ℚ
  vmin : ℚ
  dataRange : ℚ
deriving DecidableEq

/-- Evaluation of the affine closure: `(x,y) => vmin + ((yb - y) / pixelRange) * dataRange`.
The `x` argument is accepted but unused, exactly as in the source. -/
def evalAffine (a : AffineParams) (x y : ℚ) : ℚ :=
  a.vmin + ((a.yb - y) / a.pixelRange) * a.dataRange

/-- The error cases of `setCalibBtn.onclick` (each is an `alert` + early
return in the source). -/
inductive CalibError where
  | NotEnoughPoints
  | InvalidInput
  | InvalidCalibration
deriving DecidableEq

/-- The calibration logic of `setCalibBtn.onclick` (lines 179-190):
destructure the first two calibration points as `[[xb,yb],[xt,yt]]`,
require parseable bounds, require `|yb - yt| ≥ 1e-6`, and build the
affine closure parameters. `vmin`/`vmax` are the `parseFloat` results of
the two inputs (`none` = `NaN`). -/
def buildAffine (calib : List Point) (vmin vmax : Option ℚ) :
    Except CalibError AffineParams :=
  if calib.length < 2 then .error .NotEnoughPoints
  else
    match calib with
    | pb :: pt :: _ =>
      match vmin, vmax with
      | some a, some b =>
        let pixelRange := pb.y - pt.y
        if |pixelRange| < 1 / 1000000 then .error .InvalidCalibration
        else .ok ⟨pb.y, pixelRange, a, b - a⟩
      | _, _ => .error .InvalidInput
    | _ => .error .NotEnoughPoints

/-- Model of `Math.round` on a finite JS number: round half toward positive
infinity. -/
def jsRound (q : ℚ) : ℤ :=
  Int.floor (q + 1 / 2)

/-- A box `{x, y, w, h}` in canvas raster coordinates (the shape of
`cropBox`). -/
structure Box where
  x : ℚ
  y : ℚ
  w : ℚ
  h : ℚ
deriving DecidableEq

/-- The function `clampCanvasBox` (lines 58-64): round every field, clamp `x,y` into
the raster and `w,h` into what remains to the right/bottom of `x,y`. -/
def clampCanvasBox (canvasW canvasH : ℕ) (box : Box) : Box :=
  let x := max 0 (min (canvasW : ℚ) ((jsRound box.x : ℤ) : ℚ))
  let y := max 0 (min (canvasH : ℚ) ((jsRound box.y : ℤ) : ℚ))
  let w := max 0 (min ((canvasW : ℚ) - x) ((jsRound box.w : ℤ) : ℚ))
  let h := max 0 (min ((canvasH : ℚ) - y) ((jsRound box.h : ℤ) : ℚ))
  ⟨x, y, w, h⟩

/-- The fixed non-leap-year day table used in `computeResults`. -/
def daysInMonth : List ℕ :=
  [31, 28, 31, 30, 31, 30, 31, 31, 30, 31, 30, 31]

/-- The fixed calendar-name table used in `computeResults` and
`setCalibBtn.onclick`. -/
def monthNames : List String :=
  ["Jan", "Feb", "Mar", "Apr", "May", "Jun",
   "Jul", "Aug", "Sep", "Oct", "Nov", "Dec"]

/-- Model of `['Jan',...].indexOf(startEl.value)`: index of the selected start
month, `-1` when the string is not a month name (JS `indexOf`
convention). -/
def monthIndexOf (v : String) : ℤ :=
  if v ∈ monthNames then (monthNames.indexOf v : ℤ) else -1

/-- One row of the results table: month label, axis value, final value. -/
structure Row where
  month : String
  axisVal : ℚ
  finalVal : ℚ
deriving DecidableEq

/-- The body of one iteration of the `computeResults` loop for index `i`
and month point `p`. -/
def computeRow (a : AffineParams) (mode : String) (startIdx : ℤ) (i : ℕ)
    (p : Point) : Row :=
  let axisVal := evalAffine a p.x p.y
  let k := ((startIdx + (i : ℤ)).tmod 12).toNat
  let finalVal :=
    if mode = "Daily average" then axisVal * ((daysInMonth.getD k 0 : ℕ) : ℚ)
    else axisVal
  { month := monthNames.getD k "undefined", axisVal := axisVal,
    finalVal := finalVal }

/-- The function `computeResults` (lines 195-212): guard `!affine || monthPts.length < 12`,
then loop `i = 0..11` appending a row per month point and accumulating
the running total. Returns the rows and the annual total (the rendering
into the DOM table is presentation and not modelled). -/
def computeResults (affine : Option AffineParams) (monthPts : List Point)
    (mode : String) (startIdx : ℤ) : Option (List Row × ℚ) :=
  match affine with
  | none => none
  | some a =>
    if monthPts.length < 12 then none
    else
      some ((List.range 12).foldl
        (fun acc i =>
          let r := computeRow a mode startIdx i (monthPts.getD i ⟨0, 0⟩)
          (acc.1 ++ [r], acc.2 + r.finalVal))
        ([], 0))

/-- The result of `canvas.getBoundingClientRect()`: the canvas's on-screen
CSS-space rectangle. It is external DOM data, so events carry it. -/
structure DomRect where
  left : ℚ
  top : ℚ
  width : ℚ
  height : ℚ
deriving DecidableEq

/-- The record returned by `getCanvasPointFromClient` (the `rect`,
`scaleX`, `scaleY` fields are recomputable and not stored). -/
structure CanvasPoint where
  cx : ℚ
  cy : ℚ
  cssX : ℚ
  cssY : ℚ
deriving DecidableEq

/-- The function `getCanvasPointFromClient` (lines 47-56): subtract the canvas's
on-screen offset, then scale CSS coordinates by
`canvas.width / rect.width` and `canvas.height / rect.height`. -/
def getCanvasPointFromClient (canvasW canvasH : ℕ) (r : DomRect)
    (clientX clientY : ℚ) : CanvasPoint :=
  let cssX := clientX - r.left
  let cssY := clientY - r.top
  let scaleX := (canvasW : ℚ) / r.width
  let scaleY := (canvasH : ℚ) / r.height
  ⟨cssX * scaleX, cssY * scaleY, cssX, cssY⟩

/-- The `cropStart` record `{ cssX, cssY, cx, cy }` saved on mousedown. -/
structure CropStart where
  cssX : ℚ
  cssY : ℚ
  cx : ℚ
  cy : ℚ
deriving DecidableEq

/-- An image value: either an uploaded bitmap (identified by an upload
id plus its natural dimensions) or a lossless crop of another image.
Used to express that the crop result becomes the new original. -/
inductive ImageVal where
  | uploaded (uid w h : ℕ)
  | cropped (base : ImageVal) (sx sy sw sh : ℤ)
deriving DecidableEq

/-- The module-level mutable state of `script.js`, together with the
values of the UI input elements that the handlers read
(`ymin`/`ymax` as `parseFloat` results, the mode and start-month
selections as strings) and the pieces of DOM presentation state that
the logic branches on (`cropRect.style.*`, crop-rect visibility, the
results table abstracted to its computed rows and total). -/
structure AppState where
  origImg : Option ImageVal
  origW : ℕ
  origH : ℕ
  img : Option ImageVal
  canvasW : ℕ
  canvasH : ℕ
  calib : List Point
  monthPts : List Point
  affine : Option AffineParams
  capturedMode : Option String
  capturedStartIdx : Option ℤ
  results : Option (List Row × ℚ)
  yminVal : Option ℚ
  ymaxVal : Option ℚ
  modeVal : String
  startVal : String
  isCropping : Bool
  cropRectVisible : Bool
  cropBox : Box
  cropStart : Option CropStart
  isDragging : Bool
  dragOffset : Option (ℚ × ℚ)
  cssLeft : ℚ
  cssTop : ℚ
  cssW : ℚ
  cssH : ℚ
deriving DecidableEq

/-- The call `computeResults()` as made from the click handler: it reads the
globals `affine`, `monthPts`, `mode`, `startIdx`. The captured mode and
start index are `undefined` until the first successful calibration;
whenever `affine` is present they have been assigned, so the defaults
are never observable. -/
def computeResultsState (s : AppState) : Option (List Row × ℚ) :=
  computeResults s.affine s.monthPts (s.capturedMode.getD "")
    (s.capturedStartIdx.getD (-1))

/-- Running `computeResults()`: an early return leaves the results
table untouched, otherwise the table and annual label are rewritten. -/
def runComputeResults (s : AppState) : AppState :=
  match computeResultsState s with
  | none => s
  | some r => { s with results := some r }

/-- The handler `upload.onchange` (lines 91-125) after a successful decode: store
the new bitmap as both original and displayed image, keep the canvas
raster size, and reset calibration, month points, affine map and
results. -/
def uploadStep (s : AppState) (uid w h : ℕ) : AppState :=
  let newImg := ImageVal.uploaded uid w h
  { s with
    origImg := some newImg, origW := w, origH := h
    img := some newImg
    calib := [], monthPts := [], affine := none, results := none
    cropRectVisible := false }

/-- The handler `resetBtn.onclick` (lines 130-144). -/
def resetStep (s : AppState) : AppState :=
  { s with
    calib := [], monthPts := [], affine := none, results := none
    cropRectVisible := false, isCropping := false
    cropBox := ⟨0, 0, 0, 0⟩, cropStart := none, isDragging := false
    dragOffset := none }

/-- The handler `undoBtn.onclick` (lines 149-154). -/
def undoStep (s : AppState) : AppState :=
  if 0 < s.monthPts.length then { s with monthPts := s.monthPts.dropLast }
  else s

/-- The canvas `click` listener (lines 159-174); `cx cy` are the canvas
raster coordinates of the click (`getCanvasPointFromClient` applied to
the pointer event). -/
def clickStep (s : AppState) (cx cy : ℚ) : AppState :=
  if s.isCropping ∧ (s.cropStart ≠ none ∨ s.cropRectVisible) then s
  else if s.calib.length < 2 then
    { s with calib := s.calib ++ [⟨cx, cy⟩] }
  else if s.affine ≠ none ∧ s.monthPts.length < 12 then
    let s1 := { s with monthPts := s.monthPts ++ [⟨cx, cy⟩] }
    if s1.monthPts.length = 12 then runComputeResults s1 else s1
  else s

/-- The handler `setCalibBtn.onclick` (lines 179-190): on success store the affine
closure and capture the current mode and start-month selections; every
error is an alert plus early return that changes nothing. -/
def setCalibStep (s : AppState) : AppState :=
  match buildAffine s.calib s.yminVal s.ymaxVal with
  | .error _ => s
  | .ok a =>
    { s with
      affine := some a, capturedMode := some s.modeVal
      capturedStartIdx := some (monthIndexOf s.startVal) }

/-- The handler `cropToggle.onclick` (lines 217-224). -/
def cropToggleStep (s : AppState) : AppState :=
  { s with
    isCropping := !s.isCropping, cropRectVisible := !s.isCropping
    cropBox := ⟨0, 0, 0, 0⟩, cropStart := none, isDragging := false
    dragOffset := none }

/-- The canvas `mousedown` listener (lines 229-255). -/
def mousedownStep (s : AppState) (clientX clientY : ℚ) (r : DomRect) :
    AppState :=
  if ¬ s.isCropping then s
  else
    let p := getCanvasPointFromClient s.canvasW s.canvasH r clientX clientY
    if 0 < s.cssW ∧ 0 < s.cssH ∧
        s.cssLeft ≤ p.cssX ∧ p.cssX ≤ s.cssLeft + s.cssW ∧
        s.cssTop ≤ p.cssY ∧ p.cssY ≤ s.cssTop + s.cssH then
      { s with
        isDragging := true
        dragOffset := some (p.cssX - s.cssLeft, p.cssY - s.cssTop) }
    else
      { s with
        cropStart := some ⟨p.cssX, p.cssY, p.cx, p.cy⟩
        cropBox := ⟨p.cx, p.cy, 0, 0⟩, cropRectVisible := true
        cssLeft := p.cssX, cssTop := p.cssY, cssW := 0, cssH := 0 }

/-- The canvas `mousemove` listener (lines 257-294). -/
def mousemoveStep (s : AppState) (clientX clientY : ℚ) (r : DomRect) :
    AppState :=
  if ¬ s.isCropping then s
  else
    let p := getCanvasPointFromClient s.canvasW s.canvasH r clientX clientY
    let scaleX := (s.canvasW : ℚ) / r.width
    let scaleY := (s.canvasH : ℚ) / r.height
    if s.isDragging then
      let d := s.dragOffset.getD (0, 0)
      let clampedLeft := max 0 (min (p.cssX - d.1) (r.width - s.cssW))
      let clampedTop := max 0 (min (p.cssY - d.2) (r.height - s.cssH))
      { s with
        cssLeft := clampedLeft, cssTop := clampedTop
        cropBox := { s.cropBox with
          x := ((jsRound (clampedLeft * scaleX) : ℤ) : ℚ)
          y := ((jsRound (clampedTop * scaleY) : ℤ) : ℚ) } }
    else
      match s.cropStart with
      | none => s
      | some st =>
        let leftCss := min st.cssX p.cssX
        let topCss := min st.cssY p.cssY
        let widthCss := |p.cssX - st.cssX|
        let heightCss := |p.cssY - st.cssY|
        { s with
          cssLeft := leftCss, cssTop := topCss
          cssW := widthCss, cssH := heightCss
          cropBox := ⟨((jsRound (leftCss * scaleX) : ℤ) : ℚ),
            ((jsRound (topCss * scaleY) : ℤ) : ℚ),
            ((jsRound (widthCss * scaleX) : ℤ) : ℚ),
            ((jsRound (heightCss * scaleY) : ℤ) : ℚ)⟩ }

/-- The canvas `mouseup` listener (lines 296-312): clamp the crop box
and reflect it back into the CSS rectangle. -/
def mouseupStep (s : AppState) (r : DomRect) : AppState :=
  if ¬ s.isCropping then s
  else
    let cb := clampCanvasBox s.canvasW s.canvasH s.cropBox
    { s with
      isDragging := false, cropStart := none, cropBox := cb
      cssLeft := cb.x * (r.width / (s.canvasW : ℚ))
      cssTop := cb.y * (r.height / (s.canvasH : ℚ))
      cssW := cb.w * (r.width / (s.canvasW : ℚ))
      cssH := cb.h * (r.height / (s.canvasH : ℚ)) }

/-- The canvas `mouseleave` listener (line 314). -/
def mouseleaveStep (s : AppState) : AppState :=
  if ¬ s.isCropping then s
  else { s with isDragging := false, cropStart := none }

/-- The handler `applyCropBtn.onclick` (lines 319-375): clamp the crop box, map it
to original-image pixel coordinates, and on success replace both the
original and displayed image by the extracted region, resize the canvas
raster to the crop size, and reset calibration, month points, affine
map, results and crop mode. Both alert paths change nothing. -/
def applyCropStep (s : AppState) : AppState :=
  match s.origImg with
  | none => s
  | some base =>
    if ¬ s.cropRectVisible then s
    else
      let cb := clampCanvasBox s.canvasW s.canvasH s.cropBox
      if cb.w ≤ 0 ∨ cb.h ≤ 0 then s
      else
        let sx := jsRound (cb.x * ((s.origW : ℚ) / (s.canvasW : ℚ)))
        let sy := jsRound (cb.y * ((s.origH : ℚ) / (s.canvasH : ℚ)))
        let sw := jsRound (cb.w * ((s.origW : ℚ) / (s.canvasW : ℚ)))
        let sh := jsRound (cb.h * ((s.origH : ℚ) / (s.canvasH : ℚ)))
        if sw ≤ 0 ∨ sh ≤ 0 then s
        else
          let newImg := ImageVal.cropped base sx sy sw sh
          { s with
            origImg := some newImg, origW := sw.toNat
            origH := sh.toNat, img := some newImg
            canvasW := sw.toNat, canvasH := sh.toNat
            cropRectVisible := false, isCropping := false
            calib := [], monthPts := [], affine := none, results := none }

/-- The external events driving the handlers. `upload` is a completed
file decode; `editBounds`, `setMode`, `setStart` are the user changing
the input fields (no handler is attached to those fields in the source,
so they only update the stored values). -/
inductive Event where
  | upload (uid w h : ℕ)
  | reset
  | undo
  | click (cx cy : ℚ)
  | setCalib
  | cropToggle
  | mousedown (clientX clientY : ℚ) (r : DomRect)
  | mousemove (clientX clientY : ℚ) (r : DomRect)
  | mouseup (r : DomRect)
  | mouseleave
  | applyCrop
  | editBounds (vmin vmax : Option ℚ)
  | setMode (v : String)
  | setStart (v : String)
deriving DecidableEq

/-- Dispatch one event to its handler. -/
def step (s : AppState) : Event → AppState
  | .upload uid w h => uploadStep s uid w h
  | .reset => resetStep s
  | .undo => undoStep s
  | .click cx cy => clickStep s cx cy
  | .setCalib => setCalibStep s
  | .cropToggle => cropToggleStep s
  | .mousedown clientX clientY r => mousedownStep s clientX clientY r
  | .mousemove clientX clientY r => mousemoveStep s clientX clientY r
  | .mouseup r => mouseupStep s r
  | .mouseleave => mouseleaveStep s
  | .applyCrop => applyCropStep s
  | .editBounds vmin vmax => { s with yminVal := vmin, ymaxVal := vmax }
  | .setMode v => { s with modeVal := v }
  | .setStart v => { s with startVal := v }

/-- Run a sequence of events. -/
def run (s : AppState) (es : List Event) : AppState :=
  es.foldl step s

/-- The state at page load: no image, empty point stores, no affine
map; the canvas raster size and initial input-field values come from
the HTML. -/
def initState (w h : ℕ) (ymin ymax : Option ℚ) (mv sv : String) :
    AppState :=
  { origImg := none, origW := 0, origH := 0, img := none
    canvasW := w, canvasH := h
    calib := [], monthPts := [], affine := none
    capturedMode := none, capturedStartIdx := none, results := none
    yminVal := ymin, ymaxVal := ymax, modeVal := mv, startVal := sv
    isCropping := false, cropRectVisible := false
    cropBox := ⟨0, 0, 0, 0⟩, cropStart := none, isDragging := false
    dragOffset := none, cssLeft := 0, cssTop := 0, cssW := 0, cssH := 0 }

/-- States reachable from some page load by a sequence of events. -/
inductive Reachable : AppState → Prop where
  | init (w h : ℕ) (ymin ymax : Option ℚ) (mv sv : String) :
      Reachable (initState w h ymin ymax mv sv)
  | next (s : AppState) (e : Event) :
      Reachable s → Reachable (step s e)

/-- Returns `true` exactly on canvas click events. -/
def Event.isClick : Event → Bool
  | .click _ _ => true
  | _ => false

/-! ### Helper lemmas -/

theorem jsRound_zero : jsRound 0 = 0 := by
  norm_num [jsRound]

theorem buildAffine_two (pb pt : Point) (rest : List Point) (a b : ℚ)
    (h : ¬ |pb.y - pt.y| < 1 / 1000000) :
    buildAffine (pb :: pt :: rest) (some a) (some b) =
      .ok ⟨pb.y, pb.y - pt.y, a, b - a⟩ := by
  simp only [buildAffine, List.length_cons]
  rw [if_neg (by omega), if_neg h]

theorem buildAffine_concrete (x1 x2 : ℚ) :
    buildAffine [⟨x1, 500⟩, ⟨x2, 100⟩] (some 0) (some 1000) =
      .ok ⟨500, 400, 0, 1000⟩ := by
  rw [buildAffine_two ⟨x1, 500⟩ ⟨x2, 100⟩ [] 0 1000 (by norm_num)]
  norm_num

theorem runComputeResults_affine (s : AppState) :
    (runComputeResults s).affine = s.affine := by
  unfold runComputeResults
  split <;> rfl

theorem runComputeResults_calib (s : AppState) :
    (runComputeResults s).calib = s.calib := by
  unfold runComputeResults
  split <;> rfl

theorem runComputeResults_monthPts (s : AppState) :
    (runComputeResults s).monthPts = s.monthPts := by
  unfold runComputeResults
  split <;> rfl

theorem runComputeResults_img (s : AppState) :
    (runComputeResults s).img = s.img ∧
      (runComputeResults s).origImg = s.origImg := by
  unfold runComputeResults
  split <;> exact ⟨rfl, rfl⟩

/-! ### Claims -/

/-- C1: for a calibration pair `[(xb,yb),(xt,yt)]` with `|yb - yt| ≥ 1e-6`
and parseable bounds, `buildAffine` succeeds and the resulting map is
`value(x,y) = vmin + ((yb - y) / (yb - yt)) * (vmax - vmin)`; in
particular calibration points at `y = 500` (value 0) and `y = 100`
(value 1000) send a month point at `y = 300` to the axis value 500. -/
theorem buildAffine_value (xb yb xt yt vmin vmax : ℚ)
    (h : 1 / 1000000 ≤ |yb - yt|) :
    (∃ a, buildAffine [⟨xb, yb⟩, ⟨xt, yt⟩] (some vmin) (some vmax) = .ok a ∧
      ∀ x y, evalAffine a x y = vmin + ((yb - y) / (yb - yt)) * (vmax - vmin)) ∧
    (∀ x1 x2 xm : ℚ,
      ∃ a, buildAffine [⟨x1, 500⟩, ⟨x2, 100⟩] (some 0) (some 1000) = .ok a ∧
        evalAffine a xm 300 = 500) := by
  constructor
  · exact ⟨⟨yb, yb - yt, vmin, vmax - vmin⟩,
      buildAffine_two _ _ _ _ _ (not_lt.mpr h), fun x y => rfl⟩
  · intro x1 x2 xm
    exact ⟨⟨500, 400, 0, 1000⟩, buildAffine_concrete x1 x2,
      by norm_num [evalAffine]⟩

/-- C1 witness: the general statement instantiated at the calibration
pair `(10, 500), (20, 100)` with bounds `0` and `1000`. -/
theorem buildAffine_value_witness :
    (1 : ℚ) / 1000000 ≤ |(500 : ℚ) - 100| ∧
    ((∃ a, buildAffine [⟨10, 500⟩, ⟨20, 100⟩] (some 0) (some 1000) = .ok a ∧
        ∀ x y, evalAffine a x y = 0 + ((500 - y) / (500 - 100)) * (1000 - 0)) ∧
      (∀ x1 x2 xm : ℚ,
        ∃ a, buildAffine [⟨x1, 500⟩, ⟨x2, 100⟩] (some 0) (some 1000) = .ok a ∧
          evalAffine a xm 300 = 500)) :=
  ⟨by norm_num, buildAffine_value 10 500 20 100 0 1000 (by norm_num)⟩

/-- C5: for any two calibration points with `|yb - yt| ≥ 1e-6` and bounds
`vmin < vmax`, the constructed map sends `yb` to exactly `vmin` and `yt`
to exactly `vmax`, for every `x`. -/
theorem affine_endpoints (xb yb xt yt vmin vmax : ℚ)
    (hY : 1 / 1000000 ≤ |yb - yt|) (hV : vmin < vmax) :
    ∃ a, buildAffine [⟨xb, yb⟩, ⟨xt, yt⟩] (some vmin) (some vmax) = .ok a ∧
      (∀ x, evalAffine a x yb = vmin) ∧ (∀ x, evalAffine a x yt = vmax) := by
  have hne : yb - yt ≠ 0 := by
    intro h0
    rw [h0] at hY
    norm_num at hY
  refine ⟨⟨yb, yb - yt, vmin, vmax - vmin⟩,
    buildAffine_two _ _ _ _ _ (not_lt.mpr hY), fun x => ?_, fun x => ?_⟩
  · simp [evalAffine]
  · simp [evalAffine, div_self hne]

/-- C5 witness: endpoints round-trip at the concrete calibration
`(0, 500), (0, 100)` with bounds `0 < 1000`. -/
theorem affine_endpoints_witness :
    (1 : ℚ) / 1000000 ≤ |(500 : ℚ) - 100| ∧ (0 : ℚ) < 1000 ∧
    (∃ a, buildAffine [⟨0, 500⟩, ⟨0, 100⟩] (some 0) (some 1000) = .ok a ∧
      (∀ x, evalAffine a x 500 = 0) ∧ (∀ x, evalAffine a x 100 = 1000)) :=
  ⟨by norm_num, by norm_num,
    affine_endpoints 0 500 0 100 0 1000 (by norm_num) (by norm_num)⟩

/-- C9: the constructed affine map ignores its `x` argument: any two
`x` inputs give the same value at the same `y`. -/
theorem affine_const_in_x (calib : List Point) (vmin vmax : Option ℚ)
    (a : AffineParams) (h : buildAffine calib vmin vmax = .ok a)
    (x1 x2 y : ℚ) : evalAffine a x1 y = evalAffine a x2 y := rfl

/-- C9 witness: instantiated at a concrete successful calibration. -/
theorem affine_const_in_x_witness :
    buildAffine [⟨(100 : ℚ), 500⟩, ⟨100, 100⟩] (some 0) (some 1000) =
      .ok ⟨500, 400, 0, 1000⟩ ∧
    evalAffine ⟨500, 400, 0, 1000⟩ 3 250 = evalAffine ⟨500, 400, 0, 1000⟩ 7 250 :=
  ⟨buildAffine_concrete 100 100,
    affine_const_in_x [⟨(100 : ℚ), 500⟩, ⟨100, 100⟩] (some 0) (some 1000)
      ⟨500, 400, 0, 1000⟩ (buildAffine_concrete 100 100) 3 7 250⟩

/-- C4 (amended): given two calibration points, `buildAffine` fails with
`InvalidInput` exactly when `vmin` or `vmax` is not parseable; given
parseable bounds it fails with `InvalidCalibration` exactly when
`|yb - yt| < 1e-6` (the parse check runs first, so `InvalidInput` takes
priority when both conditions hold); and every failing outcome leaves
the handler's state completely unchanged. -/
theorem setCalib_error_spec :
    (∀ (pb pt : Point) (v1 v2 : Option ℚ),
      buildAffine [pb, pt] v1 v2 = .error .InvalidInput ↔
        v1 = none ∨ v2 = none) ∧
    (∀ (pb pt : Point) (a b : ℚ),
      buildAffine [pb, pt] (some a) (some b) = .error .InvalidCalibration ↔
        |pb.y - pt.y| < 1 / 1000000) ∧
    (∀ (s : AppState) (e : CalibError),
      buildAffine s.calib s.yminVal s.ymaxVal = .error e →
        step s .setCalib = s) := by
  refine ⟨fun pb pt v1 v2 => ?_, fun pb pt a b => ?_, fun s e h => ?_⟩
  · cases v1 <;> cases v2 <;>
      simp only [buildAffine, List.length_cons, List.length_nil] <;>
      rw [if_neg (by omega)]
    · simp
    · simp
    · simp
    · constructor
      · intro h
        split at h <;> simp_all
      · rintro (h | h) <;> simp at h
  · simp only [buildAffine, List.length_cons, List.length_nil]
    rw [if_neg (by omega)]
    split
    · exact iff_of_true rfl (by assumption)
    · exact iff_of_false (by simp) (by assumption)
  · simp only [step, setCalibStep, h]

/-- C4 witness: with two coincident points and an unparseable `vmin`,
the failure is `InvalidInput`. -/
theorem setCalib_error_spec_witness :
    buildAffine [⟨(0 : ℚ), 0⟩, ⟨1, 0⟩] none (some 1) = .error .InvalidInput :=
  (setCalib_error_spec.1 ⟨0, 0⟩ ⟨1, 0⟩ none (some 1)).mpr (Or.inl rfl)

/-- C4 counterexample: the claim's biconditional "fails with
`InvalidCalibration` iff `|yb - yt| < 1e-6`" is false at two coincident
points combined with an unparseable bound: the condition holds but the
reported failure is `InvalidInput`. -/
theorem setCalib_error_cex :
    |((⟨(0 : ℚ), 0⟩ : Point).y - (⟨(1 : ℚ), 0⟩ : Point).y)| < 1 / 1000000 ∧
    buildAffine [⟨(0 : ℚ), 0⟩, ⟨1, 0⟩] none (some 1) ≠
      .error .InvalidCalibration ∧
    buildAffine [⟨(0 : ℚ), 0⟩, ⟨1, 0⟩] none (some 1) = .error .InvalidInput := by
  refine ⟨by norm_num, ?_, ?_⟩ <;>
    simp only [buildAffine, List.length_cons, List.length_nil] <;>
    rw [if_neg (by omega)] <;> simp

/-- C8: `clampCanvasBox` clamps `x, y` into the raster and `w, h` into
the remaining span, so the returned box always lies fully inside
`[0, rasterWidth] × [0, rasterHeight]`. -/
theorem clampCanvasBox_contained (W H : ℕ) (b : Box) :
    0 ≤ (clampCanvasBox W H b).x ∧ (clampCanvasBox W H b).x ≤ (W : ℚ) ∧
    0 ≤ (clampCanvasBox W H b).y ∧ (clampCanvasBox W H b).y ≤ (H : ℚ) ∧
    0 ≤ (clampCanvasBox W H b).w ∧ 0 ≤ (clampCanvasBox W H b).h ∧
    (clampCanvasBox W H b).x + (clampCanvasBox W H b).w ≤ (W : ℚ) ∧
    (clampCanvasBox W H b).y + (clampCanvasBox W H b).h ≤ (H : ℚ) := by
  simp only [clampCanvasBox]
  refine ⟨le_max_left _ _,
    max_le (Nat.cast_nonneg W) (min_le_left _ _),
    le_max_left _ _,
    max_le (Nat.cast_nonneg H) (min_le_left _ _),
    le_max_left _ _, le_max_left _ _, ?_, ?_⟩
  · have hx : max 0 (min (W : ℚ) ((jsRound b.x : ℤ) : ℚ)) ≤ (W : ℚ) :=
      max_le (Nat.cast_nonneg W) (min_le_left _ _)
    have hw : max 0 (min ((W : ℚ) - max 0 (min (W : ℚ) ((jsRound b.x : ℤ) : ℚ)))
        ((jsRound b.w : ℤ) : ℚ)) ≤
          (W : ℚ) - max 0 (min (W : ℚ) ((jsRound b.x : ℤ) : ℚ)) :=
      max_le (by linarith) (min_le_left _ _)
    linarith
  · have hy : max 0 (min (H : ℚ) ((jsRound b.y : ℤ) : ℚ)) ≤ (H : ℚ) :=
      max_le (Nat.cast_nonneg H) (min_le_left _ _)
    have hh : max 0 (min ((H : ℚ) - max 0 (min (H : ℚ) ((jsRound b.y : ℤ) : ℚ)))
        ((jsRound b.h : ℤ) : ℚ)) ≤
          (H : ℚ) - max 0 (min (H : ℚ) ((jsRound b.y : ℤ) : ℚ)) :=
      max_le (by linarith) (min_le_left _ _)
    linarith

theorem computeResults_foldl (a : AffineParams) (mode : String)
    (startIdx : ℤ) (pts : List Point) :
    ∀ (l : List ℕ) (rs : List Row) (t : ℚ),
      l.foldl
        (fun acc i =>
          let r := computeRow a mode startIdx i (pts.getD i ⟨0, 0⟩)
          (acc.1 ++ [r], acc.2 + r.finalVal))
        (rs, t) =
      (rs ++ l.map (fun i => computeRow a mode startIdx i (pts.getD i ⟨0, 0⟩)),
        t + ((l.map fun i => computeRow a mode startIdx i (pts.getD i ⟨0, 0⟩)).map
          Row.finalVal).sum)
  | [], rs, t => by simp
  | i :: l, rs, t => by
    simp only [List.foldl_cons, List.map_cons, List.sum_cons]
    rw [computeResults_foldl a mode startIdx pts l]
    simp [add_assoc]

/-- C2: with twelve month points, a valid affine map, any mode and any
start index in `0..11`, `computeResults` yields twelve rows in
insertion order where row `i` carries `axisVal = affine(x_i, y_i)`, a
final value scaled by the fixed day table exactly in `Daily average`
mode, and the label `monthNames[(startIdx + i) mod 12]`; the annual
total is the sum of the twelve final values. -/
theorem computeResults_spec (pts : List Point) (a : AffineParams)
    (mode : String) (startIdx : ℤ) (hlen : pts.length = 12)
    (h0 : 0 ≤ startIdx) (h12 : startIdx < 12) :
    ∃ rows total,
      computeResults (some a) pts mode startIdx = some (rows, total) ∧
      rows.length = 12 ∧
      (∀ i, i < 12 →
        rows.getD i ⟨"", 0, 0⟩ =
          { month := monthNames.getD (((startIdx + (i : ℤ)).tmod 12).toNat)
              "undefined"
            axisVal := evalAffine a (pts.getD i ⟨0, 0⟩).x (pts.getD i ⟨0, 0⟩).y
            finalVal :=
              if mode = "Daily average" then
                evalAffine a (pts.getD i ⟨0, 0⟩).x (pts.getD i ⟨0, 0⟩).y *
                  ((daysInMonth.getD (((startIdx + (i : ℤ)).tmod 12).toNat) 0 : ℕ) : ℚ)
              else
                evalAffine a (pts.getD i ⟨0, 0⟩).x (pts.getD i ⟨0, 0⟩).y }) ∧
      total = (rows.map Row.finalVal).sum := by
  refine ⟨(List.range 12).map
      (fun i => computeRow a mode startIdx i (pts.getD i ⟨0, 0⟩)),
    (((List.range 12).map
      (fun i => computeRow a mode startIdx i (pts.getD i ⟨0, 0⟩))).map
        Row.finalVal).sum, ?_, by simp, ?_, rfl⟩
  · simp only [computeResults]
    rw [if_neg (by omega)]
    rw [computeResults_foldl a mode startIdx pts (List.range 12) [] 0]
    simp
  · intro i hi
    have hlen' : i < ((List.range 12).map
        (fun i => computeRow a mode startIdx i (pts.getD i ⟨0, 0⟩))).length := by
      simpa using hi
    rw [List.getD_eq_getElem _ _ hlen']
    simp only [List.getElem_map, List.getElem_range]
    simp only [computeRow]

/-- C2 witness: instantiated at twelve copies of the point `(100, 300)`,
the concrete affine map from the worked scenario, `Daily average` mode
and a January start. -/
theorem computeResults_spec_witness :
    (List.replicate 12 (⟨100, 300⟩ : Point)).length = 12 ∧
    (0 : ℤ) ≤ 0 ∧ (0 : ℤ) < 12 ∧
    (∃ rows total,
      computeResults (some ⟨500, 400, 0, 1000⟩)
        (List.replicate 12 (⟨100, 300⟩ : Point)) "Daily average" 0 =
          some (rows, total) ∧
      rows.length = 12 ∧
      (∀ i, i < 12 →
        rows.getD i ⟨"", 0, 0⟩ =
          { month := monthNames.getD ((((0 : ℤ) + (i : ℤ)).tmod 12).toNat)
              "undefined"
            axisVal := evalAffine ⟨500, 400, 0, 1000⟩
              ((List.replicate 12 (⟨100, 300⟩ : Point)).getD i ⟨0, 0⟩).x
              ((List.replicate 12 (⟨100, 300⟩ : Point)).getD i ⟨0, 0⟩).y
            finalVal :=
              if "Daily average" = "Daily average" then
                evalAffine ⟨500, 400, 0, 1000⟩
                  ((List.replicate 12 (⟨100, 300⟩ : Point)).getD i ⟨0, 0⟩).x
                  ((List.replicate 12 (⟨100, 300⟩ : Point)).getD i ⟨0, 0⟩).y *
                  ((daysInMonth.getD ((((0 : ℤ) + (i : ℤ)).tmod 12).toNat) 0 : ℕ) : ℚ)
              else
                evalAffine ⟨500, 400, 0, 1000⟩
                  ((List.replicate 12 (⟨100, 300⟩ : Point)).getD i ⟨0, 0⟩).x
                  ((List.replicate 12 (⟨100, 300⟩ : Point)).getD i ⟨0, 0⟩).y }) ∧
      total = (rows.map Row.finalVal).sum) :=
  ⟨by simp, by simp, by simp,
    computeResults_spec (List.replicate 12 ⟨100, 300⟩) ⟨500, 400, 0, 1000⟩
      "Daily average" 0 (by simp) (by simp) (by simp)⟩

theorem runComputeResults_results_some (s : AppState) (a : AffineParams)
    (ha : s.affine = some a) (hlen : s.monthPts.length = 12) :
    ∃ r, (runComputeResults s).results = some r := by
  unfold runComputeResults computeResultsState
  rw [ha]
  simp only [computeResults]
  rw [if_neg (by omega)]
  exact ⟨_, rfl⟩

theorem clickStep_block (s : AppState) (cx cy : ℚ)
    (hblock : s.isCropping ∧ (s.cropStart ≠ none ∨ s.cropRectVisible)) :
    clickStep s cx cy = s := by
  simp only [clickStep]
  rw [if_pos hblock]

theorem clickStep_calib (s : AppState) (cx cy : ℚ)
    (hblock : ¬ (s.isCropping ∧ (s.cropStart ≠ none ∨ s.cropRectVisible)))
    (hcal : s.calib.length < 2) :
    clickStep s cx cy = { s with calib := s.calib ++ [⟨cx, cy⟩] } := by
  simp only [clickStep]
  rw [if_neg hblock, if_pos hcal]

theorem clickStep_month12 (s : AppState) (cx cy : ℚ)
    (hblock : ¬ (s.isCropping ∧ (s.cropStart ≠ none ∨ s.cropRectVisible)))
    (hcal : ¬ s.calib.length < 2)
    (haff : s.affine ≠ none ∧ s.monthPts.length < 12)
    (h12c : (s.monthPts ++ [(⟨cx, cy⟩ : Point)]).length = 12) :
    clickStep s cx cy =
      runComputeResults { s with monthPts := s.monthPts ++ [⟨cx, cy⟩] } := by
  simp only [clickStep]
  rw [if_neg hblock, if_neg hcal, if_pos haff]
  dsimp only
  rw [if_pos h12c]

theorem clickStep_month (s : AppState) (cx cy : ℚ)
    (hblock : ¬ (s.isCropping ∧ (s.cropStart ≠ none ∨ s.cropRectVisible)))
    (hcal : ¬ s.calib.length < 2)
    (haff : s.affine ≠ none ∧ s.monthPts.length < 12)
    (h12c : ¬ (s.monthPts ++ [(⟨cx, cy⟩ : Point)]).length = 12) :
    clickStep s cx cy = { s with monthPts := s.monthPts ++ [⟨cx, cy⟩] } := by
  simp only [clickStep]
  rw [if_neg hblock, if_neg hcal, if_pos haff]
  dsimp only
  rw [if_neg h12c]

theorem clickStep_noop (s : AppState) (cx cy : ℚ)
    (hblock : ¬ (s.isCropping ∧ (s.cropStart ≠ none ∨ s.cropRectVisible)))
    (hcal : ¬ s.calib.length < 2)
    (haff : ¬ (s.affine ≠ none ∧ s.monthPts.length < 12)) :
    clickStep s cx cy = s := by
  simp only [clickStep]
  rw [if_neg hblock, if_neg hcal, if_neg haff]

/-- C7: a click adds no calibration point once two exist; it adds no
month point while the affine map is absent or twelve month points
exist, and otherwise appends the clicked point; the extraction run
(writing the results) happens exactly on the click that makes the
count reach twelve; and the bounds on the point stores (at most 2
calibration points, at most 12 month points) are preserved by every
click. -/
theorem click_spec (s : AppState) (cx cy : ℚ) :
    (2 ≤ s.calib.length → (step s (.click cx cy)).calib = s.calib) ∧
    (s.affine = none → (step s (.click cx cy)).monthPts = s.monthPts) ∧
    (12 ≤ s.monthPts.length → (step s (.click cx cy)).monthPts = s.monthPts) ∧
    (¬ (s.isCropping ∧ (s.cropStart ≠ none ∨ s.cropRectVisible)) →
      2 ≤ s.calib.length → s.affine ≠ none → s.monthPts.length < 12 →
      (step s (.click cx cy)).monthPts = s.monthPts ++ [⟨cx, cy⟩]) ∧
    (¬ (s.isCropping ∧ (s.cropStart ≠ none ∨ s.cropRectVisible)) →
      2 ≤ s.calib.length → s.affine ≠ none → s.monthPts.length = 11 →
      ∃ r, (step s (.click cx cy)).results = some r) ∧
    ((step s (.click cx cy)).results ≠ s.results →
      (step s (.click cx cy)).monthPts.length = 12 ∧
        s.monthPts.length = 11) ∧
    (s.calib.length ≤ 2 → (step s (.click cx cy)).calib.length ≤ 2) ∧
    (s.monthPts.length ≤ 12 → (step s (.click cx cy)).monthPts.length ≤ 12) := by
  have hstep : step s (.click cx cy) = clickStep s cx cy := rfl
  rw [hstep]
  by_cases hblock : s.isCropping ∧ (s.cropStart ≠ none ∨ s.cropRectVisible)
  · rw [clickStep_block s cx cy hblock]
    exact ⟨fun _ => rfl, fun _ => rfl, fun _ => rfl,
      fun hb => absurd hblock hb, fun hb => absurd hblock hb,
      fun hr => absurd rfl hr, fun h => h, fun h => h⟩
  · by_cases hcal : s.calib.length < 2
    · rw [clickStep_calib s cx cy hblock hcal]
      refine ⟨fun h2 => absurd hcal (by omega), fun _ => rfl, fun _ => rfl,
        fun _ h2 _ _ => absurd hcal (by omega),
        fun _ h2 _ _ => absurd hcal (by omega),
        fun hr => absurd rfl hr, fun h2 => ?_, fun h => h⟩
      show (s.calib ++ [(⟨cx, cy⟩ : Point)]).length ≤ 2
      simp only [List.length_append, List.length_cons, List.length_nil]
      omega
    · by_cases haff : s.affine ≠ none ∧ s.monthPts.length < 12
      · by_cases h12c : (s.monthPts ++ [(⟨cx, cy⟩ : Point)]).length = 12
        · rw [clickStep_month12 s cx cy hblock hcal haff h12c]
          obtain ⟨a, ha⟩ := Option.ne_none_iff_exists'.mp haff.1
          have hlen12 : (({ s with monthPts := s.monthPts ++ [⟨cx, cy⟩] } :
              AppState)).monthPts.length = 12 := h12c
          refine ⟨fun _ => runComputeResults_calib _,
            fun h => absurd h haff.1,
            fun h => absurd haff.2 (by omega),
            fun _ _ _ _ => runComputeResults_monthPts _,
            fun _ _ _ _ => runComputeResults_results_some _ a ha hlen12,
            fun _ => ?_, fun h2 => ?_, fun _ => ?_⟩
          · refine ⟨?_, ?_⟩
            · rw [runComputeResults_monthPts]
              exact h12c
            · have := h12c
              simp only [List.length_append, List.length_cons,
                List.length_nil] at this
              omega
          · rw [runComputeResults_calib]
            exact h2
          · rw [runComputeResults_monthPts]
            show (s.monthPts ++ [(⟨cx, cy⟩ : Point)]).length ≤ 12
            omega
        · rw [clickStep_month s cx cy hblock hcal haff h12c]
          refine ⟨fun _ => rfl, fun h => absurd h haff.1,
            fun h => absurd haff.2 (by omega),
            fun _ _ _ _ => rfl,
            fun _ _ _ h11 => absurd ?_ h12c,
            fun hr => absurd rfl hr, fun h2 => h2, fun _ => ?_⟩
          · simp only [List.length_append, List.length_cons, List.length_nil]
            omega
          · have := haff.2
            show (s.monthPts ++ [(⟨cx, cy⟩ : Point)]).length ≤ 12
            simp only [List.length_append, List.length_cons, List.length_nil]
            omega
      · rw [clickStep_noop s cx cy hblock hcal haff]
        refine ⟨fun _ => rfl, fun _ => rfl, fun _ => rfl,
          fun _ _ h1 h2 => absurd ⟨h1, h2⟩ haff,
          fun _ _ h1 h2 => absurd ⟨h1, by omega⟩ haff,
          fun hr => absurd rfl hr, fun h => h, fun h => h⟩

/-- A calibrated state holding eleven month points, used to exercise the
click that triggers extraction. -/
def monthState : AppState :=
  { initState 800 600 (some 0) (some 1000) "Total" "Jan" with
    calib := [⟨100, 500⟩, ⟨100, 100⟩]
    affine := some ⟨500, 400, 0, 1000⟩
    capturedMode := some "Total"
    capturedStartIdx := some 0
    monthPts := [⟨1, 1⟩, ⟨2, 2⟩, ⟨3, 3⟩, ⟨4, 4⟩, ⟨5, 5⟩, ⟨6, 6⟩,
      ⟨7, 7⟩, ⟨8, 8⟩, ⟨9, 9⟩, ⟨10, 10⟩, ⟨11, 11⟩] }

/-- C7 witness: on a calibrated state with eleven month points, the
twelfth click appends and triggers the extraction run. -/
theorem click_spec_witness :
    ¬ (monthState.isCropping ∧
        (monthState.cropStart ≠ none ∨ monthState.cropRectVisible)) ∧
    2 ≤ monthState.calib.length ∧
    monthState.affine ≠ none ∧
    monthState.monthPts.length = 11 ∧
    (∃ r, (step monthState (.click 50 200)).results = some r) :=
  ⟨by decide, by decide, by decide, by decide,
    (click_spec monthState 50 200).2.2.2.2.1 (by decide) (by decide)
      (by decide) (by decide)⟩

theorem buildAffine_ok_length (calib : List Point) (v1 v2 : Option ℚ)
    (a : AffineParams) (h : buildAffine calib v1 v2 = .ok a) :
    2 ≤ calib.length := by
  by_contra hlt
  simp only [buildAffine] at h
  rw [if_pos (by omega)] at h
  exact absurd h (by simp)

theorem undoStep_frame (s : AppState) :
    (undoStep s).calib = s.calib ∧ (undoStep s).origImg = s.origImg ∧
      (undoStep s).img = s.img ∧ (undoStep s).affine = s.affine := by
  simp only [undoStep]
  split <;> exact ⟨rfl, rfl, rfl, rfl⟩

theorem setCalibStep_frame (s : AppState) :
    (setCalibStep s).calib = s.calib ∧ (setCalibStep s).origImg = s.origImg ∧
      (setCalibStep s).img = s.img := by
  simp only [setCalibStep]
  split <;> exact ⟨rfl, rfl, rfl⟩

theorem mousedownStep_frame (s : AppState) (cX cY : ℚ) (r : DomRect) :
    (mousedownStep s cX cY r).calib = s.calib ∧
      (mousedownStep s cX cY r).origImg = s.origImg ∧
      (mousedownStep s cX cY r).img = s.img ∧
      (mousedownStep s cX cY r).affine = s.affine := by
  simp only [mousedownStep]
  split_ifs <;> exact ⟨rfl, rfl, rfl, rfl⟩

theorem mousemoveStep_frame (s : AppState) (cX cY : ℚ) (r : DomRect) :
    (mousemoveStep s cX cY r).calib = s.calib ∧
      (mousemoveStep s cX cY r).origImg = s.origImg ∧
      (mousemoveStep s cX cY r).img = s.img ∧
      (mousemoveStep s cX cY r).affine = s.affine := by
  simp only [mousemoveStep]
  split_ifs <;>
    first
      | exact ⟨rfl, rfl, rfl, rfl⟩
      | (split <;> exact ⟨rfl, rfl, rfl, rfl⟩)

theorem mouseupStep_frame (s : AppState) (r : DomRect) :
    (mouseupStep s r).calib = s.calib ∧
      (mouseupStep s r).origImg = s.origImg ∧
      (mouseupStep s r).img = s.img ∧
      (mouseupStep s r).affine = s.affine := by
  simp only [mouseupStep]
  split_ifs <;> exact ⟨rfl, rfl, rfl, rfl⟩

theorem mouseleaveStep_frame (s : AppState) :
    (mouseleaveStep s).calib = s.calib ∧
      (mouseleaveStep s).origImg = s.origImg ∧
      (mouseleaveStep s).img = s.img ∧
      (mouseleaveStep s).affine = s.affine := by
  simp only [mouseleaveStep]
  split_ifs <;> exact ⟨rfl, rfl, rfl, rfl⟩

theorem applyCropStep_cases (s : AppState) :
    applyCropStep s = s ∨ (applyCropStep s).affine = none := by
  simp only [applyCropStep]
  split
  · exact Or.inl rfl
  · split_ifs <;> first | exact Or.inl rfl | exact Or.inr rfl

/-- In every reachable state, an existing affine map implies the
calibration set holds (at least) its two reference points: the affine
map is built only from two points, and every operation that shrinks the
calibration set also nulls the map. -/
theorem reachable_calib_length (s : AppState) (hs : Reachable s) :
    s.affine ≠ none → 2 ≤ s.calib.length := by
  induction hs with
  | init w h ymin ymax mv sv => exact fun h' => absurd rfl h'
  | next s e hr ih =>
    cases e with
    | upload uid w h => exact fun h' => absurd rfl h'
    | reset => exact fun h' => absurd rfl h'
    | undo =>
      have hf := undoStep_frame s
      simp only [step]
      intro h'
      rw [hf.2.2.2] at h'
      rw [hf.1]
      exact ih h'
    | click cx cy =>
      have hstep : step s (.click cx cy) = clickStep s cx cy := rfl
      rw [hstep]
      by_cases hblock : s.isCropping ∧ (s.cropStart ≠ none ∨ s.cropRectVisible)
      · rw [clickStep_block s cx cy hblock]
        exact ih
      · by_cases hcal : s.calib.length < 2
        · rw [clickStep_calib s cx cy hblock hcal]
          intro h'
          have h2 := ih h'
          show 2 ≤ (s.calib ++ [(⟨cx, cy⟩ : Point)]).length
          simp only [List.length_append, List.length_cons, List.length_nil]
          omega
        · by_cases haff : s.affine ≠ none ∧ s.monthPts.length < 12
          · by_cases h12c : (s.monthPts ++ [(⟨cx, cy⟩ : Point)]).length = 12
            · rw [clickStep_month12 s cx cy hblock hcal haff h12c]
              intro _
              rw [runComputeResults_calib]
              show 2 ≤ s.calib.length
              omega
            · rw [clickStep_month s cx cy hblock hcal haff h12c]
              intro _
              show 2 ≤ s.calib.length
              omega
          · rw [clickStep_noop s cx cy hblock hcal haff]
            exact ih
    | setCalib =>
      simp only [step, setCalibStep]
      rcases hba : buildAffine s.calib s.yminVal s.ymaxVal with e | a
      · simp only [hba]
        exact ih
      · simp only [hba]
        exact fun _ => buildAffine_ok_length _ _ _ _ hba
    | cropToggle => exact ih
    | mousedown cX cY r =>
      have hf := mousedownStep_frame s cX cY r
      simp only [step]
      intro h'
      rw [hf.2.2.2] at h'
      rw [hf.1]
      exact ih h'
    | mousemove cX cY r =>
      have hf := mousemoveStep_frame s cX cY r
      simp only [step]
      intro h'
      rw [hf.2.2.2] at h'
      rw [hf.1]
      exact ih h'
    | mouseup r =>
      have hf := mouseupStep_frame s r
      simp only [step]
      intro h'
      rw [hf.2.2.2] at h'
      rw [hf.1]
      exact ih h'
    | mouseleave =>
      have hf := mouseleaveStep_frame s
      simp only [step]
      intro h'
      rw [hf.2.2.2] at h'
      rw [hf.1]
      exact ih h'
    | applyCrop =>
      rcases applyCropStep_cases s with heq | hnone
      · have hstep : step s .applyCrop = applyCropStep s := rfl
        rw [hstep, heq]
        exact ih
      · have hstep : step s .applyCrop = applyCropStep s := rfl
        rw [hstep]
        exact fun h' => absurd hnone h'
    | editBounds v1 v2 => exact ih
    | setMode v => exact ih
    | setStart v => exact ih

/-- C3 (amended): in every reachable state with a constructed AffineMap,
any event that changes the calibration points or replaces the
original/displayed image leaves the AffineMap absent afterwards.
Changing the bound input values alone does not invalidate an existing
AffineMap (no handler is attached to the bound inputs), which is the
counterexample to the claim as stated. -/
theorem affine_invalidation (s : AppState) (hs : Reachable s)
    (ha : s.affine ≠ none) (e : Event)
    (hch : (step s e).calib ≠ s.calib ∨ (step s e).origImg ≠ s.origImg ∨
      (step s e).img ≠ s.img) :
    (step s e).affine = none := by
  cases e with
  | upload uid w h => rfl
  | reset => rfl
  | undo =>
    exfalso
    have hf := undoStep_frame s
    rcases hch with h | h | h
    · exact h hf.1
    · exact h hf.2.1
    · exact h hf.2.2.1
  | click cx cy =>
    exfalso
    have h2 := reachable_calib_length s hs ha
    have hstep : step s (.click cx cy) = clickStep s cx cy := rfl
    rw [hstep] at hch
    by_cases hblock : s.isCropping ∧ (s.cropStart ≠ none ∨ s.cropRectVisible)
    · rw [clickStep_block s cx cy hblock] at hch
      rcases hch with h | h | h <;> exact h rfl
    · by_cases hcal : s.calib.length < 2
      · omega
      · by_cases haff : s.affine ≠ none ∧ s.monthPts.length < 12
        · by_cases h12c : (s.monthPts ++ [(⟨cx, cy⟩ : Point)]).length = 12
          · rw [clickStep_month12 s cx cy hblock hcal haff h12c] at hch
            rcases hch with h | h | h
            · exact h (runComputeResults_calib _)
            · exact h (runComputeResults_img _).2
            · exact h (runComputeResults_img _).1
          · rw [clickStep_month s cx cy hblock hcal haff h12c] at hch
            rcases hch with h | h | h <;> exact h rfl
        · rw [clickStep_noop s cx cy hblock hcal haff] at hch
          rcases hch with h | h | h <;> exact h rfl
  | setCalib =>
    exfalso
    have hf := setCalibStep_frame s
    rcases hch with h | h | h
    · exact h hf.1
    · exact h hf.2.1
    · exact h hf.2.2
  | cropToggle =>
    exfalso
    rcases hch with h | h | h <;> exact h rfl
  | mousedown cX cY r =>
    exfalso
    have hf := mousedownStep_frame s cX cY r
    rcases hch with h | h | h
    · exact h hf.1
    · exact h hf.2.1
    · exact h hf.2.2.1
  | mousemove cX cY r =>
    exfalso
    have hf := mousemoveStep_frame s cX cY r
    rcases hch with h | h | h
    · exact h hf.1
    · exact h hf.2.1
    · exact h hf.2.2.1
  | mouseup r =>
    exfalso
    have hf := mouseupStep_frame s r
    rcases hch with h | h | h
    · exact h hf.1
    · exact h hf.2.1
    · exact h hf.2.2.1
  | mouseleave =>
    exfalso
    have hf := mouseleaveStep_frame s
    rcases hch with h | h | h
    · exact h hf.1
    · exact h hf.2.1
    · exact h hf.2.2.1
  | applyCrop =>
    rcases applyCropStep_cases s with heq | hnone
    · exfalso
      have hstep : step s .applyCrop = applyCropStep s := rfl
      rw [hstep, heq] at hch
      rcases hch with h | h | h <;> exact h rfl
    · exact hnone
  | editBounds v1 v2 =>
    exfalso
    rcases hch with h | h | h <;> exact h rfl
  | setMode v =>
    exfalso
    rcases hch with h | h | h <;> exact h rfl
  | setStart v =>
    exfalso
    rcases hch with h | h | h <;> exact h rfl

theorem monthIndexOf_Jan : monthIndexOf "Jan" = 0 := by decide

theorem setCalibStep_ok (s : AppState) (a : AffineParams)
    (h : buildAffine s.calib s.yminVal s.ymaxVal = .ok a) :
    setCalibStep s =
      { s with
        affine := some a, capturedMode := some s.modeVal
        capturedStartIdx := some (monthIndexOf s.startVal) } := by
  simp only [setCalibStep, h]

/-- The state reached by uploading a 1000 × 800 image onto an 800 × 600
canvas, clicking the two calibration points `(100, 500)` and
`(100, 100)`, and setting calibration with bounds `0` and `1000`. -/
def calibState : AppState :=
  run (initState 800 600 (some 0) (some 1000) "Total" "Jan")
    [.upload 1 1000 800, .click 100 500, .click 100 100, .setCalib]

theorem calibState_eq :
    calibState =
      { origImg := some (.uploaded 1 1000 800), origW := 1000, origH := 800
        img := some (.uploaded 1 1000 800), canvasW := 800, canvasH := 600
        calib := [⟨100, 500⟩, ⟨100, 100⟩], monthPts := []
        affine := some ⟨500, 400, 0, 1000⟩
        capturedMode := some "Total", capturedStartIdx := some 0
        results := none, yminVal := some 0, ymaxVal := some 1000
        modeVal := "Total", startVal := "Jan"
        isCropping := false, cropRectVisible := false
        cropBox := ⟨0, 0, 0, 0⟩, cropStart := none, isDragging := false
        dragOffset := none, cssLeft := 0, cssTop := 0, cssW := 0
        cssH := 0 } := by
  have hs1 : clickStep (uploadStep
        (initState 800 600 (some 0) (some 1000) "Total" "Jan") 1 1000 800)
        100 500 =
      { initState 800 600 (some 0) (some 1000) "Total" "Jan" with
        origImg := some (.uploaded 1 1000 800), origW := 1000, origH := 800
        img := some (.uploaded 1 1000 800), calib := [⟨100, 500⟩] } := by
    rw [clickStep_calib _ 100 500 (by decide) (by decide)]
    rfl
  have hs2 : clickStep
      ({ initState 800 600 (some 0) (some 1000) "Total" "Jan" with
        origImg := some (.uploaded 1 1000 800), origW := 1000, origH := 800
        img := some (.uploaded 1 1000 800),
        calib := [⟨100, 500⟩] } : AppState) 100 100 =
      { initState 800 600 (some 0) (some 1000) "Total" "Jan" with
        origImg := some (.uploaded 1 1000 800), origW := 1000, origH := 800
        img := some (.uploaded 1 1000 800)
        calib := [⟨100, 500⟩, ⟨100, 100⟩] } := by
    rw [clickStep_calib _ 100 100 (by decide) (by decide)]
    rfl
  have hs3 : setCalibStep
      ({ initState 800 600 (some 0) (some 1000) "Total" "Jan" with
        origImg := some (.uploaded 1 1000 800), origW := 1000, origH := 800
        img := some (.uploaded 1 1000 800),
        calib := [⟨100, 500⟩, ⟨100, 100⟩] } : AppState) =
      { initState 800 600 (some 0) (some 1000) "Total" "Jan" with
        origImg := some (.uploaded 1 1000 800), origW := 1000, origH := 800
        img := some (.uploaded 1 1000 800)
        calib := [⟨100, 500⟩, ⟨100, 100⟩]
        affine := some ⟨500, 400, 0, 1000⟩
        capturedMode := some "Total", capturedStartIdx := some 0 } := by
    rw [setCalibStep_ok _ ⟨500, 400, 0, 1000⟩ (buildAffine_concrete 100 100)]
    simp only [initState, monthIndexOf_Jan]
  show setCalibStep (clickStep (clickStep (uploadStep
      (initState 800 600 (some 0) (some 1000) "Total" "Jan") 1 1000 800)
      100 500) 100 100) = _
  rw [hs1, hs2, hs3]
  rfl

theorem calibState_reachable : Reachable calibState :=
  Reachable.next _ .setCalib
    (Reachable.next _ (.click 100 100)
      (Reachable.next _ (.click 100 500)
        (Reachable.next _ (.upload 1 1000 800)
          (Reachable.init 800 600 (some 0) (some 1000) "Total" "Jan"))))

/-- C3 counterexample: `calibState` has a constructed AffineMap; editing
the bound inputs to `5` and `7` changes the bound values, yet the
AffineMap is still present afterwards — so changing the bounds does not
null the map. -/
theorem affine_invalidation_cex :
    calibState.affine ≠ none ∧
    (step calibState (.editBounds (some 5) (some 7))).yminVal ≠
      calibState.yminVal ∧
    (step calibState (.editBounds (some 5) (some 7))).affine ≠ none := by
  rw [calibState_eq]
  refine ⟨Option.some_ne_none _, ?_, Option.some_ne_none _⟩
  show (some (5 : ℚ)) ≠ some 0
  simp only [ne_eq, Option.some.injEq]
  norm_num

/-- C3 witness: the amended theorem applied to the reachable calibrated
state and the reset event, which clears the calibration points. -/
theorem affine_invalidation_witness :
    (step calibState .reset).calib ≠ calibState.calib ∧
    (step calibState .reset).affine = none := by
  have hch : (step calibState .reset).calib ≠ calibState.calib ∨
      (step calibState .reset).origImg ≠ calibState.origImg ∨
      (step calibState .reset).img ≠ calibState.img := by
    left
    rw [calibState_eq]
    show ¬ ([] : List Point) = [⟨100, 500⟩, ⟨100, 100⟩]
    simp
  have ha : calibState.affine ≠ none := by
    rw [calibState_eq]
    exact Option.some_ne_none _
  refine ⟨?_, affine_invalidation calibState calibState_reachable ha .reset hch⟩
  rw [calibState_eq]
  show ¬ ([] : List Point) = [⟨100, 500⟩, ⟨100, 100⟩]
  simp

theorem clampCanvasBox_w_nonneg (W H : ℕ) (b : Box) :
    0 ≤ (clampCanvasBox W H b).w := by
  simp only [clampCanvasBox]
  exact le_max_left _ _

theorem clampCanvasBox_h_nonneg (W H : ℕ) (b : Box) :
    0 ≤ (clampCanvasBox W H b).h := by
  simp only [clampCanvasBox]
  exact le_max_left _ _

/-- C6: applying a crop with the crop UI active fails (leaving the whole
state unchanged) exactly when the clamped crop box mapped to
original-image space has width or height ≤ 0; otherwise the canvas
raster is resized to exactly `(sw, sh)`, the cropped image becomes both
the new original reference and the displayed image, the calibration
points, month points, affine map and results are cleared, and crop mode
returns to idle. -/
theorem applyCrop_spec (s : AppState) (base : ImageVal) (sx sy sw sh : ℤ)
    (h1 : s.origImg = some base) (h2 : s.cropRectVisible = true)
    (hx : sx = jsRound ((clampCanvasBox s.canvasW s.canvasH s.cropBox).x *
      ((s.origW : ℚ) / (s.canvasW : ℚ))))
    (hy : sy = jsRound ((clampCanvasBox s.canvasW s.canvasH s.cropBox).y *
      ((s.origH : ℚ) / (s.canvasH : ℚ))))
    (hw : sw = jsRound ((clampCanvasBox s.canvasW s.canvasH s.cropBox).w *
      ((s.origW : ℚ) / (s.canvasW : ℚ))))
    (hh : sh = jsRound ((clampCanvasBox s.canvasW s.canvasH s.cropBox).h *
      ((s.origH : ℚ) / (s.canvasH : ℚ)))) :
    (sw ≤ 0 ∨ sh ≤ 0 → step s .applyCrop = s) ∧
    (0 < sw → 0 < sh →
      step s .applyCrop =
        { s with
          origImg := some (.cropped base sx sy sw sh), origW := sw.toNat
          origH := sh.toNat, img := some (.cropped base sx sy sw sh)
          canvasW := sw.toNat, canvasH := sh.toNat
          cropRectVisible := false, isCropping := false
          calib := [], monthPts := [], affine := none, results := none }) := by
  subst hx
  subst hy
  subst hw
  subst hh
  have hstep : step s .applyCrop = applyCropStep s := rfl
  constructor
  · intro hfail
    rw [hstep]
    simp only [applyCropStep, h1]
    split_ifs <;> rfl
  · intro hw0 hh0
    rw [hstep]
    simp only [applyCropStep, h1]
    have hv : ¬ ¬ s.cropRectVisible = true := by
      rw [h2]
      simp
    have hcb : ¬ ((clampCanvasBox s.canvasW s.canvasH s.cropBox).w ≤ 0 ∨
        (clampCanvasBox s.canvasW s.canvasH s.cropBox).h ≤ 0) := by
      rintro (hc | hc)
      · have h0 : (clampCanvasBox s.canvasW s.canvasH s.cropBox).w = 0 :=
          le_antisymm hc (clampCanvasBox_w_nonneg _ _ _)
        rw [h0, zero_mul, jsRound_zero] at hw0
        exact absurd hw0 (lt_irrefl 0)
      · have h0 : (clampCanvasBox s.canvasW s.canvasH s.cropBox).h = 0 :=
          le_antisymm hc (clampCanvasBox_h_nonneg _ _ _)
        rw [h0, zero_mul, jsRound_zero] at hh0
        exact absurd hh0 (lt_irrefl 0)
    rw [if_neg hv, if_neg hcb, if_neg (by
      rintro (hc | hc)
      · omega
      · omega)]

/-- A state with an uploaded 200 × 100 image shown on a 100 × 50 canvas
and a committed crop box, used to exercise the crop application. -/
def cropState : AppState :=
  { initState 100 50 none none "" "" with
    origImg := some (.uploaded 1 200 100), origW := 200, origH := 100
    cropBox := ⟨10, 5, 20, 10⟩, cropRectVisible := true }

theorem cropState_clamp :
    clampCanvasBox cropState.canvasW cropState.canvasH cropState.cropBox =
      ⟨10, 5, 20, 10⟩ := by
  show clampCanvasBox 100 50 ⟨10, 5, 20, 10⟩ = ⟨10, 5, 20, 10⟩
  simp only [clampCanvasBox, jsRound]
  norm_num

/-- C6 witness: applying the crop on `cropState` maps the box
`(10, 5, 20, 10)` to original-image pixels `(20, 10, 40, 20)` and
resets the state accordingly. -/
theorem applyCrop_spec_witness :
    cropState.origImg = some (.uploaded 1 200 100) ∧
    cropState.cropRectVisible = true ∧
    (0 : ℤ) < 40 ∧ (0 : ℤ) < 20 ∧
    step cropState .applyCrop =
      { cropState with
        origImg := some (.cropped (.uploaded 1 200 100) 20 10 40 20)
        origW := 40, origH := 20
        img := some (.cropped (.uploaded 1 200 100) 20 10 40 20)
        canvasW := 40, canvasH := 20
        cropRectVisible := false, isCropping := false
        calib := [], monthPts := [], affine := none, results := none } :=
  ⟨rfl, rfl, by decide, by decide,
    (applyCrop_spec cropState (.uploaded 1 200 100) 20 10 40 20 rfl rfl
      (by rw [cropState_clamp]; norm_num [cropState, initState, jsRound])
      (by rw [cropState_clamp]; norm_num [cropState, initState, jsRound])
      (by rw [cropState_clamp]; norm_num [cropState, initState, jsRound])
      (by rw [cropState_clamp]; norm_num [cropState, initState, jsRound])).2
      (by decide) (by decide)⟩

theorem computeResultsState_ignores_selectors (s : AppState)
    (m sv : String) :
    computeResultsState { s with modeVal := m, startVal := sv } =
      computeResultsState s := rfl

theorem runComputeResults_ignores_selectors (s : AppState) (m sv : String) :
    runComputeResults { s with modeVal := m, startVal := sv } =
      { runComputeResults s with modeVal := m, startVal := sv } := by
  unfold runComputeResults
  rw [computeResultsState_ignores_selectors]
  split <;> rfl

theorem clickStep_ignores_selectors (s : AppState) (m sv : String)
    (cx cy : ℚ) :
    clickStep { s with modeVal := m, startVal := sv } cx cy =
      { clickStep s cx cy with modeVal := m, startVal := sv } := by
  by_cases hblock : s.isCropping ∧ (s.cropStart ≠ none ∨ s.cropRectVisible)
  · rw [clickStep_block ({ s with modeVal := m, startVal := sv } : AppState)
        cx cy hblock, clickStep_block s cx cy hblock]
  · by_cases hcal : s.calib.length < 2
    · rw [clickStep_calib ({ s with modeVal := m, startVal := sv } : AppState)
          cx cy hblock hcal,
        clickStep_calib s cx cy hblock hcal]
    · by_cases haff : s.affine ≠ none ∧ s.monthPts.length < 12
      · by_cases h12c : (s.monthPts ++ [(⟨cx, cy⟩ : Point)]).length = 12
        · rw [clickStep_month12
              ({ s with modeVal := m, startVal := sv } : AppState)
              cx cy hblock hcal haff h12c,
            clickStep_month12 s cx cy hblock hcal haff h12c]
          show runComputeResults
              { ({ s with monthPts := s.monthPts ++ [⟨cx, cy⟩] } : AppState) with
                modeVal := m, startVal := sv } = _
          rw [runComputeResults_ignores_selectors]
        · rw [clickStep_month
              ({ s with modeVal := m, startVal := sv } : AppState)
              cx cy hblock hcal haff h12c,
            clickStep_month s cx cy hblock hcal haff h12c]
      · rw [clickStep_noop
            ({ s with modeVal := m, startVal := sv } : AppState)
            cx cy hblock hcal haff,
          clickStep_noop s cx cy hblock hcal haff]

theorem run_clicks_ignores_selectors (m sv : String) :
    ∀ (es : List Event) (s : AppState), (∀ e ∈ es, e.isClick = true) →
      run { s with modeVal := m, startVal := sv } es =
        { run s es with modeVal := m, startVal := sv } := by
  intro es
  induction es with
  | nil => exact fun s _ => rfl
  | cons e es ih =>
    intro s h
    have he := h e (List.mem_cons_self e es)
    cases e with
    | click cx cy =>
      show run (clickStep { s with modeVal := m, startVal := sv } cx cy) es = _
      rw [clickStep_ignores_selectors]
      exact ih (clickStep s cx cy)
        (fun e' h' => h e' (List.mem_cons_of_mem _ h'))
    | upload uid w hgt => exact absurd he (by simp [Event.isClick])
    | reset => exact absurd he (by simp [Event.isClick])
    | undo => exact absurd he (by simp [Event.isClick])
    | setCalib => exact absurd he (by simp [Event.isClick])
    | cropToggle => exact absurd he (by simp [Event.isClick])
    | mousedown cX cY r => exact absurd he (by simp [Event.isClick])
    | mousemove cX cY r => exact absurd he (by simp [Event.isClick])
    | mouseup r => exact absurd he (by simp [Event.isClick])
    | mouseleave => exact absurd he (by simp [Event.isClick])
    | applyCrop => exact absurd he (by simp [Event.isClick])
    | editBounds v1 v2 => exact absurd he (by simp [Event.isClick])
    | setMode v => exact absurd he (by simp [Event.isClick])
    | setStart v => exact absurd he (by simp [Event.isClick])

/-- C10: the mode and start-month used by extraction are the values
captured when calibration was last set, not the live selections:
changing the selections after calibration and then adding any sequence
of clicks yields the same results, month points and affine map as if
the selections had not been touched. -/
theorem selectors_captured_at_calibration (s : AppState) (m sv : String)
    (es : List Event) (h : ∀ e ∈ es, e.isClick = true) :
    (run (step (step s (.setMode m)) (.setStart sv)) es).results =
      (run s es).results ∧
    (run (step (step s (.setMode m)) (.setStart sv)) es).monthPts =
      (run s es).monthPts ∧
    (run (step (step s (.setMode m)) (.setStart sv)) es).affine =
      (run s es).affine := by
  have hss : step (step s (.setMode m)) (.setStart sv) =
      { s with modeVal := m, startVal := sv } := rfl
  rw [hss, run_clicks_ignores_selectors m sv es s h]
  exact ⟨rfl, rfl, rfl⟩

/-- C10 witness: on the calibrated eleven-point state, switching the
mode to `Daily average` and the start month to `Mar` before the final
click changes neither the computed results nor the points nor the
affine map. -/
theorem selectors_captured_witness :
    (∀ e ∈ [Event.click 30 40], e.isClick = true) ∧
    ((run (step (step monthState (.setMode "Daily average"))
        (.setStart "Mar")) [Event.click 30 40]).results =
      (run monthState [Event.click 30 40]).results ∧
    (run (step (step monthState (.setMode "Daily average"))
        (.setStart "Mar")) [Event.click 30 40]).monthPts =
      (run monthState [Event.click 30 40]).monthPts ∧
    (run (step (step monthState (.setMode "Daily average"))
        (.setStart "Mar")) [Event.click 30 40]).affine =
      (run monthState [Event.click 30 40]).affine) :=
  ⟨by decide, selectors_captured_at_calibration monthState "Daily average"
    "Mar" [Event.click 30 40] (by decide)⟩

end WattChart
